import Mathlib

/-!
Verification of the online-research repository core against its specification.

The Python sources are modelled by a shallow embedding:

* `extract_local_links_from_html` / `check_missing_files_in_project` embed
  `src/scripts/utils/html_validator.py` (the same code is duplicated in
  `src/mcp-servers/filesystem-server.py` and `src/scripts/research-agent.py`);
* `update_research_progress` embeds the progress writer of
  `src/mcp-servers/filesystem-server.py`, `agent_update_progress` the one of
  `src/scripts/research-agent.py`;
* `write_activity_to_file` embeds the activity store of
  `src/scripts/research-agent.py`;
* `pollPass` and `message_loop_errors` embed one poll pass, resp. the
  error-counting skeleton, of `message_loop` in `src/scripts/research-agent.py`;
* `emit` embeds `ToolCallHandler.emit` of `src/scripts/research-agent.py`.

File I/O is made explicit: file contents, parse results and the wall clock are
passed as arguments; a `none` argument stands for a missing file or a parse
failure, an `Option`-valued collaborator stands for a call that may raise.
Python machine integers are unbounded, so `Int`/`Nat` model them exactly.
-/

namespace OnlineResearch

/-! ### Python string primitives (ASCII fragment used by the sources) -/

/-- Whitespace characters recognised by Python `str.strip` / the regex class
`\s` (ASCII fragment; the sources only ever meet ASCII log text). -/
def isPyWs (c : Char) : Bool :=
  c = ' ' || c = '\t' || c = '\n' || c = '\r' || c = Char.ofNat 11 || c = Char.ofNat 12

/-- Python `s.strip()` on a character list. -/
def pyStripList (l : List Char) : List Char :=
  ((l.dropWhile isPyWs).reverse.dropWhile isPyWs).reverse

/-- Python `s.strip()`. -/
def pyStrip (s : String) : String :=
  ⟨pyStripList s.toList⟩

/-- Substring containment on character lists. -/
def containsSubL (needle : List Char) : List Char → Bool
  | [] => needle.isEmpty
  | c :: rest => needle.isPrefixOf (c :: rest) || containsSubL needle rest

/-- Python `needle in hay` (substring containment). -/
def containsSub (needle hay : String) : Bool :=
  containsSubL needle.toList hay.toList

/-- The text after the first occurrence of `needle`, i.e. Python
`hay.split(needle, 1)[1]` when the separator occurs (`none` otherwise).
All call sites use a non-empty `needle`. -/
def afterFirst (needle : List Char) : List Char → Option (List Char)
  | [] => if needle = [] then some [] else none
  | c :: rest =>
    if needle.isPrefixOf (c :: rest) then some ((c :: rest).drop needle.length)
    else afterFirst needle rest

/-- ASCII lower-casing, as Python `str.lower` acts on ASCII. -/
def lowerChar (c : Char) : Char :=
  if 'A' ≤ c ∧ c ≤ 'Z' then Char.ofNat (c.toNat + 32) else c

/-- Python `s.lower()`. -/
def pyLower (s : String) : String :=
  ⟨s.toList.map lowerChar⟩

/-- Python `l1.startswith(l2)` on character lists. -/
def startsWithL (s pre : List Char) : Bool :=
  pre.isPrefixOf s

/-- The double-quote character. -/
def dq : Char := Char.ofNat 34

/-- The single-quote character. -/
def sq : Char := Char.ofNat 39

/-- A one-character string holding a single quote. -/
def sqS : String := ⟨[sq]⟩

/-- Membership in the regex character class `["\']`. -/
def isQuote (c : Char) : Bool :=
  c = dq || c = sq

/-- Case-insensitive literal match: the pattern is given in lower case, and on
success the remainder of the subject is returned.  Implements a regex literal
under `re.IGNORECASE`. -/
def matchLitCI : List Char → List Char → Option (List Char)
  | [], s => some s
  | _ :: _, [] => none
  | p :: ps, c :: cs => if lowerChar c = p then matchLitCI ps cs else none

/-! ### Link extraction

Embeds `extract_local_links_from_html` (html_validator.py lines 13-43).  The
attribute scanner implements `re.findall` for the pattern
`(?:href|src)=["\']([^"\']+)["\']` with `re.IGNORECASE`: at each position the
engine tries `href=` then `src=`, then an opening quote, then a maximal
non-empty run of non-quote characters, then a closing quote; the two
alternatives differ in their first character and the quote class is disjoint
from the value class, so the regex never backtracks and this committed-choice
scan is exact. -/

/-- One anchored attempt of the attribute pattern; on success returns the
captured value and the remainder after the whole match. -/
def matchAttrValueAt (s : List Char) : Option (List Char × List Char) :=
  let afterKey : Option (List Char) :=
    match matchLitCI "href=".toList s with
    | some r => some r
    | none => matchLitCI "src=".toList s
  match afterKey with
  | none => none
  | some r =>
    match r with
    | [] => none
    | q :: r2 =>
      if isQuote q then
        let cap := r2.takeWhile (fun c => !(isQuote c))
        match r2.drop cap.length with
        | [] => none
        | q2 :: r3 => if isQuote q2 ∧ cap ≠ [] then some (cap, r3) else none
      else none

/-- The non-overlapping left-to-right scan of `re.findall`.  The fuel is an
upper bound on the number of scan steps; every step consumes at least one
character, so fuel equal to the subject length is exact. -/
def findAttrValues : Nat → List Char → List (List Char)
  | 0, _ => []
  | _ + 1, [] => []
  | fuel + 1, c :: rest =>
    match matchAttrValueAt (c :: rest) with
    | some (cap, after) => cap :: findAttrValues fuel after
    | none => findAttrValues fuel rest

/-- The scheme filter of html_validator.py line 31: Python
`link.startswith(("http://", "https://", "mailto:", "#", "data:", "javascript:"))`. -/
def badScheme (link : String) : Bool :=
  startsWithL link.toList "http://".toList ||
  startsWithL link.toList "https://".toList ||
  startsWithL link.toList "mailto:".toList ||
  startsWithL link.toList "#".toList ||
  startsWithL link.toList "data:".toList ||
  startsWithL link.toList "javascript:".toList

/-- Python `not link.strip()`: true iff the link is empty or whitespace-only. -/
def isBlankPy (link : String) : Bool :=
  link.toList.all isPyWs

/-- Python `link.split("?")[0].split("#")[0]`. -/
def stripQueryFrag (link : String) : String :=
  ⟨(link.toList.takeWhile (fun c => c ≠ '?')).takeWhile (fun c => c ≠ '#')⟩

/-- Set insertion; models `set.add`.  The list holds pairwise distinct
elements, so membership matches Python set membership. -/
def insertNew (x : String) (l : List String) : List String :=
  if x ∈ l then l else l ++ [x]

/-- The filter/strip/deduplicate loop of html_validator.py lines 29-41,
folded over the list of matched attribute values. -/
def addLink (acc : List String) (link : String) : List String :=
  if badScheme link then acc
  else if isBlankPy link then acc
  else if stripQueryFrag link = "" then acc
  else insertNew (stripQueryFrag link) acc

/-- The whole link-processing loop over a match list. -/
def processLinks (ms : List String) : List String :=
  ms.foldl addLink []

/-- Embeds `extract_local_links_from_html` (html_validator.py lines 13-43). -/
def extract_local_links_from_html (html : String) : List String :=
  processLinks ((findAttrValues html.toList.length html.toList).map (fun l => ⟨l⟩))

/-- The C7 example document: it contains `<a href="a.html?x=1#s">` and
`<a href='a.html'>`. -/
def docC7 : String :=
  "<a href=\"a.html?x=1#s\"></a><a href=" ++ sqS ++ "a.html" ++ sqS ++ "></a>"

/-! ### Lemmas about link processing -/

theorem mem_insertNew (x y : String) (l : List String) :
    x ∈ insertNew y l ↔ x ∈ l ∨ x = y := by
  unfold insertNew
  split
  · constructor
    · exact Or.inl
    · rintro (h | rfl)
      · exact h
      · assumption
  · simp

theorem mem_addLink (acc : List String) (m x : String) :
    x ∈ addLink acc m ↔
      x ∈ acc ∨
        (badScheme m = false ∧ isBlankPy m = false ∧ stripQueryFrag m = x ∧ x ≠ "") := by
  unfold addLink
  split
  · rename_i hbad
    simp [hbad]
  · rename_i hbad
    split
    · rename_i hblank
      simp [hblank]
    · rename_i hblank
      split
      · rename_i hempty
        constructor
        · exact Or.inl
        · rintro (h | ⟨-, -, rfl, hx⟩)
          · exact h
          · exact absurd hempty hx
      · rename_i hempty
        rw [mem_insertNew]
        constructor
        · rintro (h | rfl)
          · exact Or.inl h
          · exact Or.inr ⟨Bool.eq_false_iff.mpr hbad, Bool.eq_false_iff.mpr hblank,
              rfl, hempty⟩
        · rintro (h | ⟨-, -, rfl, -⟩)
          · exact Or.inl h
          · exact Or.inr rfl

theorem mem_foldl_addLink (ms : List String) (acc : List String) (x : String) :
    x ∈ ms.foldl addLink acc ↔
      x ∈ acc ∨
        ∃ m ∈ ms,
          badScheme m = false ∧ isBlankPy m = false ∧ stripQueryFrag m = x ∧ x ≠ "" := by
  induction ms generalizing acc with
  | nil => simp
  | cons m ms ih =>
    rw [List.foldl_cons, ih, mem_addLink]
    simp only [List.mem_cons]
    constructor
    · rintro ((h | h) | ⟨m', hm', h⟩)
      · exact Or.inl h
      · exact Or.inr ⟨m, Or.inl rfl, h⟩
      · exact Or.inr ⟨m', Or.inr hm', h⟩
    · rintro (h | ⟨m', (rfl | hm'), h⟩)
      · exact Or.inl (Or.inl h)
      · exact Or.inl (Or.inr h)
      · exact Or.inr ⟨m', hm', h⟩

theorem mem_processLinks (ms : List String) (x : String) :
    x ∈ processLinks ms ↔
      ∃ m ∈ ms,
        badScheme m = false ∧ isBlankPy m = false ∧ stripQueryFrag m = x ∧ x ≠ "" := by
  rw [processLinks, mem_foldl_addLink]
  simp

/-- C7: link extraction is deduplicating, order-independent and
scheme-filtering.  Part 1 characterises membership in the extracted set: a
reference is kept iff some matched attribute value survives the scheme filter
(`http://`, `https://`, `mailto:`, `#`, `data:`, `javascript:` prefixes
excluded), is not empty or whitespace-only, and equals the reference after
stripping the query string and fragment (split on `?` then `#`, left part
kept, empty results dropped).  Part 2: the extracted set is invariant under
permutation of the attribute occurrences.  Part 3: the document containing
both `<a href="a.html?x=1#s">` and `<a href='a.html'>` yields exactly the
single reference `a.html`. -/
theorem c7_link_extraction :
    (∀ (ms : List String) (x : String),
        x ∈ processLinks ms ↔
          ∃ m ∈ ms,
            badScheme m = false ∧ isBlankPy m = false ∧
              stripQueryFrag m = x ∧ x ≠ "") ∧
    (∀ (ms₁ ms₂ : List String), List.Perm ms₁ ms₂ →
        ∀ x : String, (x ∈ processLinks ms₁ ↔ x ∈ processLinks ms₂)) ∧
    extract_local_links_from_html docC7 = ["a.html"] := by
  refine ⟨mem_processLinks, ?_, by decide⟩
  intro ms₁ ms₂ hperm x
  rw [mem_processLinks, mem_processLinks]
  constructor
  · rintro ⟨m, hm, h⟩
    exact ⟨m, hperm.mem_iff.mp hm, h⟩
  · rintro ⟨m, hm, h⟩
    exact ⟨m, hperm.mem_iff.mpr hm, h⟩

/-- Witness for C7: the permutation part applied at a concrete pair of match
lists, and the membership part applied at a concrete match list. -/
theorem c7_link_extraction_witness :
    (("a.html" ∈ processLinks ["b.css", "a.html?x=1"]) ↔
        ("a.html" ∈ processLinks ["a.html?x=1", "b.css"])) ∧
    (("a.html" ∈ processLinks ["a.html?x=1"]) ↔
        ∃ m ∈ ["a.html?x=1"],
          badScheme m = false ∧ isBlankPy m = false ∧
            stripQueryFrag m = "a.html" ∧ "a.html" ≠ "") :=
  ⟨c7_link_extraction.2.1 ["b.css", "a.html?x=1"] ["a.html?x=1", "b.css"]
      (by decide) "a.html",
    c7_link_extraction.1 ["a.html?x=1"] "a.html"⟩

/-! ### Missing-file scan

Embeds `check_missing_files_in_project` (html_validator.py lines 46-89, the
same code as filesystem-server.py lines 313-353).  The project directory is
modelled as the list of HTML files found by the glob (path relative to the
project root, content) together with the set of paths that exist on disk.
`Path` joining is modelled by string concatenation with `/`, which agrees
with `pathlib` on the dot-free relative links the scan produces. -/

/-- A project directory as the scan sees it. -/
structure ProjectFS where
  htmlFiles : List (String × String)
  existingPaths : List String

/-- The directory part of a relative path: the text before the last `/`, or
the empty string when there is no slash (models `Path.parent` for relative
paths). -/
def dirOf (path : String) : String :=
  match path.toList.reverse.dropWhile (fun c => c ≠ '/') with
  | [] => ""
  | _ :: t => ⟨t.reverse⟩

/-- Resolution of one extracted link (html_validator.py lines 68-74): a link
starting with `/` is taken relative to the project root with the leading
slashes stripped (`link.lstrip("/")`); any other link is taken relative to
the referencing document's directory. -/
def resolveLink (htmlPath link : String) : String :=
  if startsWithL link.toList "/".toList then ⟨link.toList.dropWhile (fun c => c = '/')⟩
  else if dirOf htmlPath = "" then link
  else dirOf htmlPath ++ "/" ++ link

/-- Embeds `check_missing_files_in_project`: for every HTML document, the
extracted local links whose resolved path does not exist; documents with no
missing link are omitted. -/
def check_missing_files_in_project (fs : ProjectFS) : List (String × List String) :=
  fs.htmlFiles.foldr
    (fun hf acc =>
      let missing :=
        (extract_local_links_from_html hf.2).filter
          (fun link => !(fs.existingPaths.contains (resolveLink hf.1 link)))
      if missing = [] then acc else (hf.1, missing) :: acc)
    []

/-- The total count of missing references,
Python `sum(len(links) for links in missing_files.values())`. -/
def totalMissing (fs : ProjectFS) : Nat :=
  ((check_missing_files_in_project fs).map (fun p => p.2.length)).sum

/-! ### ProgressStore

`update_research_progress` embeds the MCP tool of filesystem-server.py lines
357-451 (the persisted record only; the returned message string is display
text).  The wall clock is a `Nat` and `isoZ` stands for
`datetime.utcnow().isoformat() + "Z"`; `estimatedCompletion` adds the
estimated minutes.  The prior file content is `some (completedTasks,
startedAt)` when the file exists and parses (absent keys default like
`dict.get`), `none` when the file is missing or `json.loads` raised. -/

/-- A persisted `.research-progress.json` record as written by
`update_research_progress`. -/
structure ProgressRecord where
  percentage : Int
  currentTask : String
  currentTaskDescription : String
  completedTasks : List String
  startedAt : String
  updatedAt : String
  estimatedMinutesRemaining : Int
  estimatedCompletion : Option String
deriving DecidableEq

/-- Stand-in for `datetime.utcnow().isoformat() + "Z"` at integer time `t`. -/
def isoZ (t : Nat) : String :=
  toString t ++ "Z"

/-- Python `started_at or dflt`: `None` and the empty string are falsy. -/
def pyOr (s : Option String) (dflt : String) : String :=
  match s with
  | some v => if v = "" then dflt else v
  | none => dflt

/-- Embeds `update_research_progress` (filesystem-server.py lines 357-451). -/
def update_research_progress (fs : ProjectFS)
    (prior : Option (List String × Option String))
    (percentage : Int) (current_task task_description : String)
    (estimated_minutes_remaining : Int) (now : Nat) : ProgressRecord :=
  let completed_tasks := (prior.map Prod.fst).getD []
  let started_at : Option String := (prior.map Prod.snd).getD none
  let completed_tasks :=
    if 0 < percentage ∧ current_task ∉ completed_tasks ∧ percentage < 100 then
      completed_tasks ++ [current_task]
    else completed_tasks
  let estimated_completion : Option String :=
    if 0 < estimated_minutes_remaining then
      some (isoZ (now + estimated_minutes_remaining.toNat * 60))
    else none
  let progress : ProgressRecord :=
    { percentage := min 100 (max 0 percentage)
      currentTask := current_task
      currentTaskDescription := task_description
      completedTasks := completed_tasks
      startedAt := pyOr started_at (isoZ now)
      updatedAt := isoZ now
      estimatedMinutesRemaining := estimated_minutes_remaining
      estimatedCompletion := estimated_completion }
  let missing_files := check_missing_files_in_project fs
  if 90 ≤ percentage ∧ missing_files ≠ [] then
    { progress with
      percentage := 85
      currentTask := "BLOCKED: Missing files"
      currentTaskDescription :=
        "Cannot complete - " ++ toString (totalMissing fs) ++
          " referenced files not created yet" }
  else progress

/-- A persisted record as written by the agent-side `update_progress`
(research-agent.py lines 351-391); it has a different shape from the server's
record. -/
structure AgentProgressRecord where
  percentage : Int
  currentTask : String
  currentTaskDescription : String
  completedTasks : List String
  startedAt : String
  estimatedCompletion : String
deriving DecidableEq

/-- Embeds the agent-side `update_progress` (research-agent.py lines
351-391): no prior record is read, `startedAt` is always the current time,
and the percentage is written without clamping. -/
def agent_update_progress (fs : ProjectFS) (percentage : Int)
    (current_task : String) (completed_tasks : List String) (now : Nat) :
    AgentProgressRecord :=
  if 90 ≤ percentage ∧ check_missing_files_in_project fs ≠ [] then
    { percentage := 85
      currentTask := "BLOCKED: Missing files"
      currentTaskDescription :=
        "Cannot complete - " ++ toString (totalMissing fs) ++
          " referenced files not created"
      completedTasks := completed_tasks
      startedAt := isoZ now
      estimatedCompletion := isoZ now }
  else
    { percentage := percentage
      currentTask := current_task
      currentTaskDescription := "Currently working on: " ++ current_task
      completedTasks := completed_tasks
      startedAt := isoZ now
      estimatedCompletion := isoZ now }

/-- A project with `index.html` referencing `missing.html`, which does not
exist. -/
def fsMissing : ProjectFS :=
  ⟨[("index.html", "<a href=\"missing.html\"></a>")], ["index.html"]⟩

/-- A project with no HTML files at all. -/
def fsEmpty : ProjectFS :=
  ⟨[], []⟩

/-! ### Claims about the progress writers -/

/-- Unfolding of the server writer when the completion gate fires. -/
theorem update_research_progress_gated (fs : ProjectFS)
    (prior : Option (List String × Option String)) (p : Int)
    (task desc : String) (est : Int) (t : Nat)
    (hp : 90 ≤ p) (hm : check_missing_files_in_project fs ≠ []) :
    update_research_progress fs prior p task desc est t =
      { percentage := 85
        currentTask := "BLOCKED: Missing files"
        currentTaskDescription :=
          "Cannot complete - " ++ toString (totalMissing fs) ++
            " referenced files not created yet"
        completedTasks :=
          if 0 < p ∧ task ∉ (prior.map Prod.fst).getD [] ∧ p < 100 then
            (prior.map Prod.fst).getD [] ++ [task]
          else (prior.map Prod.fst).getD []
        startedAt := pyOr ((prior.map Prod.snd).getD none) (isoZ t)
        updatedAt := isoZ t
        estimatedMinutesRemaining := est
        estimatedCompletion :=
          if 0 < est then some (isoZ (t + est.toNat * 60)) else none } := by
  rw [update_research_progress]
  rw [if_pos (show 90 ≤ p ∧ check_missing_files_in_project fs ≠ [] from ⟨hp, hm⟩)]

/-- Unfolding of the server writer when the completion gate does not fire. -/
theorem update_research_progress_plain (fs : ProjectFS)
    (prior : Option (List String × Option String)) (p : Int)
    (task desc : String) (est : Int) (t : Nat)
    (h : ¬(90 ≤ p ∧ check_missing_files_in_project fs ≠ [])) :
    update_research_progress fs prior p task desc est t =
      { percentage := min 100 (max 0 p)
        currentTask := task
        currentTaskDescription := desc
        completedTasks :=
          if 0 < p ∧ task ∉ (prior.map Prod.fst).getD [] ∧ p < 100 then
            (prior.map Prod.fst).getD [] ++ [task]
          else (prior.map Prod.fst).getD []
        startedAt := pyOr ((prior.map Prod.snd).getD none) (isoZ t)
        updatedAt := isoZ t
        estimatedMinutesRemaining := est
        estimatedCompletion :=
          if 0 < est then some (isoZ (t + est.toNat * 60)) else none } := by
  rw [update_research_progress]
  rw [if_neg h]

/-- C1: the completion gate.  For every progress write on a project whose
HTML documents contain at least one missing local reference: a requested
percentage `≥ 90` persists `percentage = 85`, `currentTask = "BLOCKED:
Missing files"` and a description stating the count of missing references
(the caller's requested task, description and percentage are not written); a
requested percentage of `89` under the same missing references persists `89`;
with no missing references a requested `100` persists `100`.  Both progress
writers — the server's `update_research_progress` and the agent's
`update_progress` — are covered. -/
theorem c1_completion_gate :
    (∀ (fs : ProjectFS) (prior : Option (List String × Option String))
        (p : Int) (task desc : String) (est : Int) (t : Nat) (ct : List String),
      check_missing_files_in_project fs ≠ [] → 90 ≤ p →
        (update_research_progress fs prior p task desc est t).percentage = 85 ∧
        (update_research_progress fs prior p task desc est t).currentTask =
          "BLOCKED: Missing files" ∧
        (update_research_progress fs prior p task desc est t).currentTaskDescription =
          "Cannot complete - " ++ toString (totalMissing fs) ++
            " referenced files not created yet" ∧
        (agent_update_progress fs p task ct t).percentage = 85 ∧
        (agent_update_progress fs p task ct t).currentTask =
          "BLOCKED: Missing files" ∧
        (agent_update_progress fs p task ct t).currentTaskDescription =
          "Cannot complete - " ++ toString (totalMissing fs) ++
            " referenced files not created") ∧
    (∀ (fs : ProjectFS) (prior : Option (List String × Option String))
        (task desc : String) (est : Int) (t : Nat) (ct : List String),
      check_missing_files_in_project fs ≠ [] →
        (update_research_progress fs prior 89 task desc est t).percentage = 89 ∧
        (agent_update_progress fs 89 task ct t).percentage = 89) ∧
    (∀ (fs : ProjectFS) (prior : Option (List String × Option String))
        (task desc : String) (est : Int) (t : Nat) (ct : List String),
      check_missing_files_in_project fs = [] →
        (update_research_progress fs prior 100 task desc est t).percentage = 100 ∧
        (agent_update_progress fs 100 task ct t).percentage = 100) := by
  refine ⟨?_, ?_, ?_⟩
  · intro fs prior p task desc est t ct hm hp
    rw [update_research_progress_gated fs prior p task desc est t hp hm]
    rw [agent_update_progress]
    rw [if_pos (show 90 ≤ p ∧ check_missing_files_in_project fs ≠ [] from ⟨hp, hm⟩)]
    exact ⟨rfl, rfl, rfl, rfl, rfl, rfl⟩
  · intro fs prior task desc est t ct hm
    rw [update_research_progress_plain fs prior 89 task desc est t (by norm_num)]
    rw [agent_update_progress]
    rw [if_neg
      (show ¬(90 ≤ (89 : Int) ∧ check_missing_files_in_project fs ≠ []) from
        by norm_num)]
    exact ⟨by norm_num, rfl⟩
  · intro fs prior task desc est t ct hm
    rw [update_research_progress_plain fs prior 100 task desc est t (by simp [hm])]
    rw [agent_update_progress]
    rw [if_neg
      (show ¬(90 ≤ (100 : Int) ∧ check_missing_files_in_project fs ≠ []) from
        by simp [hm])]
    exact ⟨by norm_num, rfl⟩

/-- Witness for C1: the gate at the concrete project `fsMissing`
(`index.html` referencing the absent `missing.html`) and at the empty
project. -/
theorem c1_completion_gate_witness :
    ((update_research_progress fsMissing none 100 "Done" "d" 0 7).percentage = 85 ∧
      (update_research_progress fsMissing none 100 "Done" "d" 0 7).currentTask =
        "BLOCKED: Missing files") ∧
    (update_research_progress fsMissing none 89 "t" "d" 0 7).percentage = 89 ∧
    (update_research_progress fsEmpty none 100 "t" "d" 0 7).percentage = 100 := by
  have h1 := c1_completion_gate.1 fsMissing none 100 "Done" "d" 0 7 []
    (by decide) (by decide)
  have h2 := c1_completion_gate.2.1 fsMissing none "t" "d" 0 7 [] (by decide)
  have h3 := c1_completion_gate.2.2 fsEmpty none "t" "d" 0 7 [] (by decide)
  exact ⟨⟨h1.1, h1.2.1⟩, h2.1, h3.1⟩

/-- C6 as stated is false: the claim quantifies over every progress update
(its sources name both writers), but the agent-side `update_progress`
persists the requested percentage without clamping.  At the concrete input
`percentage = -10` on a project with no HTML files the persisted percentage
is `-10`, not `min 100 (max 0 (-10)) = 0`. -/
theorem c6_clamp_cex :
    (agent_update_progress fsEmpty (-10) "t" [] 0).percentage = -10 ∧
    min 100 (max 0 (-10 : Int)) = 0 := by
  decide

/-- C6 (amended): the server-side writer `update_research_progress` clamps:
whenever the completion gate does not override, the persisted percentage is
`min 100 (max 0 p)`; in particular `-10` persists `0`, `150` persists `100`
and `50` persists `50`.  The agent-side `update_progress` writes the
requested percentage unchanged (its callers only pass constants in range). -/
theorem c6_clamp :
    (∀ (fs : ProjectFS) (prior : Option (List String × Option String))
        (p : Int) (task desc : String) (est : Int) (t : Nat),
      ¬(90 ≤ p ∧ check_missing_files_in_project fs ≠ []) →
        (update_research_progress fs prior p task desc est t).percentage =
          min 100 (max 0 p)) ∧
    ((update_research_progress fsEmpty none (-10) "t" "d" 0 0).percentage = 0 ∧
      (update_research_progress fsEmpty none 150 "t" "d" 0 0).percentage = 100 ∧
      (update_research_progress fsEmpty none 50 "t" "d" 0 0).percentage = 50) ∧
    (∀ (fs : ProjectFS) (p : Int) (task : String) (ct : List String) (t : Nat),
      ¬(90 ≤ p ∧ check_missing_files_in_project fs ≠ []) →
        (agent_update_progress fs p task ct t).percentage = p) := by
  refine ⟨?_, by decide, ?_⟩
  · intro fs prior p task desc est t h
    rw [update_research_progress_plain fs prior p task desc est t h]
  · intro fs p task ct t h
    rw [agent_update_progress, if_neg h]

/-- Witness for C6 (amended): the clamp applied at `p = -10` on the empty
project. -/
theorem c6_clamp_witness :
    (update_research_progress fsEmpty none (-10) "t" "d" 0 0).percentage =
      min 100 (max 0 (-10 : Int)) :=
  c6_clamp.1 fsEmpty none (-10) "t" "d" 0 0 (by decide)

/-- Timestamps rendered by `isoZ` are never the empty string. -/
theorem isoZ_ne_empty (t : Nat) : isoZ t ≠ "" := by
  intro h
  have hd : (isoZ t).data = ([] : List Char) := congrArg String.data h
  rw [isoZ] at hd
  have : (toString t ++ "Z").data = (toString t).data ++ ['Z'] := rfl
  rw [this] at hd
  simp at hd

/-- Python `prior or dflt` keeps a non-empty prior value. -/
theorem pyOr_some_ne (v d : String) (h : v ≠ "") : pyOr (some v) d = v := by
  rw [pyOr, if_neg h]

/-- C5 as stated is false: the claim quantifies over every progress write
(its sources name both writers), but the agent-side `update_progress` never
reads the prior record and always writes `startedAt` as the current time.
Concretely, a first write at time `5` persists `startedAt = "5Z"`, and a
second agent-side write with a different percentage at time `7` persists
`startedAt = "7Z"`. -/
theorem c5_startedAt_cex :
    (agent_update_progress fsEmpty 60 "t2" [] 7).startedAt ≠
      (update_research_progress fsEmpty none 50 "t" "d" 0 5).startedAt := by
  decide

/-- C5 (amended): `startedAt` is fixed at first write and preserved by every
subsequent write through the server-side `update_research_progress`.
Part 1: any record obtained from a server write, written back as the prior
record of a second server write with any percentage, keeps its `startedAt`
unchanged.  Part 2: a prior record with any non-empty `startedAt` keeps it
(the empty string is falsy for Python `or` and is replaced by the current
time).  The agent-side `update_progress` instead resets `startedAt` to the
current time on every write. -/
theorem c5_startedAt_roundtrip :
    (∀ (fs₁ fs₂ : ProjectFS) (prior : Option (List String × Option String))
        (p₁ p₂ : Int) (task₁ desc₁ task₂ desc₂ : String) (est₁ est₂ : Int)
        (t₁ t₂ : Nat),
      (update_research_progress fs₂
          (some ((update_research_progress fs₁ prior p₁ task₁ desc₁ est₁ t₁).completedTasks,
            some (update_research_progress fs₁ prior p₁ task₁ desc₁ est₁ t₁).startedAt))
          p₂ task₂ desc₂ est₂ t₂).startedAt =
        (update_research_progress fs₁ prior p₁ task₁ desc₁ est₁ t₁).startedAt) ∧
    (∀ (fs : ProjectFS) (tasks : List String) (s : String) (p : Int)
        (task desc : String) (est : Int) (t : Nat),
      s ≠ "" →
        (update_research_progress fs (some (tasks, some s)) p task desc est t).startedAt =
          s) ∧
    (∀ (fs : ProjectFS) (p : Int) (task : String) (ct : List String) (t : Nat),
      (agent_update_progress fs p task ct t).startedAt = isoZ t) := by
  have hstarted : ∀ (fs : ProjectFS) (prior : Option (List String × Option String))
      (p : Int) (task desc : String) (est : Int) (t : Nat),
      (update_research_progress fs prior p task desc est t).startedAt =
        pyOr ((prior.map Prod.snd).getD none) (isoZ t) := by
    intro fs prior p task desc est t
    by_cases h : 90 ≤ p ∧ check_missing_files_in_project fs ≠ []
    · rw [update_research_progress_gated fs prior p task desc est t h.1 h.2]
    · rw [update_research_progress_plain fs prior p task desc est t h]
  have hne : ∀ (prior : Option (List String × Option String)) (t : Nat),
      pyOr ((prior.map Prod.snd).getD none) (isoZ t) ≠ "" := by
    intro prior t
    rcases prior with _ | ⟨tasks, s'⟩
    · exact isoZ_ne_empty t
    · rcases s' with _ | v
      · exact isoZ_ne_empty t
      · show pyOr (some v) (isoZ t) ≠ ""
        by_cases hv : v = ""
        · rw [pyOr, if_pos hv]
          exact isoZ_ne_empty t
        · rw [pyOr, if_neg hv]
          exact hv
  refine ⟨?_, ?_, ?_⟩
  · intro fs₁ fs₂ prior p₁ p₂ task₁ desc₁ task₂ desc₂ est₁ est₂ t₁ t₂
    rw [hstarted, hstarted]
    exact pyOr_some_ne _ _ (hne prior t₁)
  · intro fs tasks s p task desc est t hs
    rw [hstarted]
    exact pyOr_some_ne s _ hs
  · intro fs p task ct t
    rw [agent_update_progress]
    by_cases h : 90 ≤ p ∧ check_missing_files_in_project fs ≠ []
    · rw [if_pos h]
    · rw [if_neg h]

/-- Witness for C5 (amended): a concrete two-write round trip through the
server writer, and preservation of a concrete non-empty `startedAt`. -/
theorem c5_startedAt_roundtrip_witness :
    (update_research_progress fsEmpty (some (["a"], some "3Z")) 70 "t2" "d2" 0 9).startedAt =
      "3Z" :=
  c5_startedAt_roundtrip.2.1 fsEmpty ["a"] "3Z" 70 "t2" "d2" 0 9 (by decide)

/-- C10: the gate-override frame.  When the completion gate fires in
`update_research_progress` (requested percentage `≥ 90` with missing
references), only `percentage`, `currentTask` and `currentTaskDescription`
are overridden: `startedAt`, `updatedAt`, `estimatedMinutesRemaining` and
`estimatedCompletion` keep the values computed from the caller's input, and
`completedTasks` is exactly the caller-computed list — in particular, for a
requested percentage in `[90, 100)` the requested task name has already been
appended (if new), so the blocked task name still appears in the persisted
`completedTasks`. -/
theorem c10_gate_override_frame :
    ∀ (fs : ProjectFS) (prior : Option (List String × Option String))
      (p : Int) (task desc : String) (est : Int) (t : Nat),
      90 ≤ p → check_missing_files_in_project fs ≠ [] →
        (update_research_progress fs prior p task desc est t).startedAt =
            pyOr ((prior.map Prod.snd).getD none) (isoZ t) ∧
        (update_research_progress fs prior p task desc est t).updatedAt = isoZ t ∧
        (update_research_progress fs prior p task desc est t).estimatedMinutesRemaining =
            est ∧
        (update_research_progress fs prior p task desc est t).estimatedCompletion =
            (if 0 < est then some (isoZ (t + est.toNat * 60)) else none) ∧
        (update_research_progress fs prior p task desc est t).completedTasks =
            (if 0 < p ∧ task ∉ (prior.map Prod.fst).getD [] ∧ p < 100 then
              (prior.map Prod.fst).getD [] ++ [task]
            else (prior.map Prod.fst).getD []) ∧
        (p < 100 →
          task ∈ (update_research_progress fs prior p task desc est t).completedTasks) := by
  intro fs prior p task desc est t hp hm
  rw [update_research_progress_gated fs prior p task desc est t hp hm]
  refine ⟨rfl, rfl, rfl, rfl, rfl, ?_⟩
  intro hlt
  by_cases htask : task ∈ (prior.map Prod.fst).getD []
  · by_cases hcond : 0 < p ∧ task ∉ (prior.map Prod.fst).getD [] ∧ p < 100
    · simp only [if_pos hcond]
      exact List.mem_append_left _ htask
    · simp only [if_neg hcond]
      exact htask
  · have hcond : 0 < p ∧ task ∉ (prior.map Prod.fst).getD [] ∧ p < 100 :=
      ⟨by omega, htask, hlt⟩
    simp only [if_pos hcond]
    exact List.mem_append_right _ (List.mem_singleton.mpr rfl)

/-- Witness for C10: the frame at the concrete project `fsMissing` with a
requested percentage of 95. -/
theorem c10_gate_override_frame_witness :
    (update_research_progress fsMissing none 95 "Write summary" "d" 4 11).updatedAt =
        isoZ 11 ∧
    "Write summary" ∈
        (update_research_progress fsMissing none 95 "Write summary" "d" 4 11).completedTasks := by
  have h := c10_gate_override_frame fsMissing none 95 "Write summary" "d" 4 11
    (by decide) (by decide)
  exact ⟨h.2.1, h.2.2.2.2.2 (by decide)⟩

/-! ### ActivityStore

Embeds `write_activity_to_file` (research-agent.py lines 43-71).  The
existing file content is `some list` when `.activities.json` exists and
parses, `none` when the file is missing or `json.loads` raised — both are
replaced by the empty list.  The generated id is
`f"activity_{epoch_ms}_{type}"`.  A failing final write only reports to
stderr; the persisted-list semantics below is that of a successful write. -/

/-- One stored activity entry (the fields the store itself touches). -/
structure StoredActivity where
  atype : String
  payload : String
  id : String
deriving DecidableEq

/-- The id assignment `activity["id"] = f"activity_{ms}_{type}"`. -/
def stampId (nowMs : Nat) (a : StoredActivity) : StoredActivity :=
  { a with id := "activity_" ++ toString nowMs ++ "_" ++ a.atype }

/-- Embeds `write_activity_to_file`: load (defaulting to `[]`), stamp the id,
append, truncate to the most recent 1000 entries (`activities[-1000:]`),
persist. -/
def write_activity_to_file (existing : Option (List StoredActivity))
    (nowMs : Nat) (a : StoredActivity) : List StoredActivity :=
  let activities := existing.getD []
  let activities := activities ++ [stampId nowMs a]
  if activities.length > 1000 then activities.drop (activities.length - 1000)
  else activities

/-- A sequence of appends, each against the list persisted by the previous
one, starting from an empty store. -/
def appendAll (xs : List (Nat × StoredActivity)) : List StoredActivity :=
  xs.foldl (fun acc ta => write_activity_to_file (some acc) ta.1 ta.2) []

/-- The truncation branch collapses to an unconditional `drop`, because
`length - 1000 = 0` when the bound is not exceeded. -/
theorem write_activity_eq_drop (existing : Option (List StoredActivity))
    (nowMs : Nat) (a : StoredActivity) :
    write_activity_to_file existing nowMs a =
      (existing.getD [] ++ [stampId nowMs a]).drop
        ((existing.getD [] ++ [stampId nowMs a]).length - 1000) := by
  rw [write_activity_to_file]
  split
  · rfl
  · rename_i h
    rw [Nat.sub_eq_zero_of_le (by omega), List.drop_zero]

/-- Composition of the per-append truncations: dropping from a dropped list
after appending equals one drop on the full concatenation. -/
theorem drop_append_drop {α : Type} (m s : List α) (k j : Nat)
    (hk : k ≤ m.length) :
    ((m.drop k) ++ s).drop j = (m ++ s).drop (k + j) := by
  rw [show (m ++ s).drop (k + j) = ((m ++ s).drop k).drop j from
    (List.drop_drop j k (m ++ s)).symm]
  rw [List.drop_append_of_le_length hk]

/-- The persisted list after any tail of appends starting from a persisted
state of at most 1000 entries is the most recent 1000 of the concatenation. -/
theorem foldl_write_eq_drop (xs : List (Nat × StoredActivity))
    (l : List StoredActivity) (hl : l.length ≤ 1000) :
    xs.foldl (fun acc ta => write_activity_to_file (some acc) ta.1 ta.2) l =
      (l ++ xs.map (fun ta => stampId ta.1 ta.2)).drop
        ((l ++ xs.map (fun ta => stampId ta.1 ta.2)).length - 1000) := by
  induction xs generalizing l with
  | nil =>
    simp only [List.foldl_nil, List.map_nil, List.append_nil]
    rw [Nat.sub_eq_zero_of_le hl, List.drop_zero]
  | cons x xs ih =>
    have hsome : write_activity_to_file (some l) x.1 x.2 =
        (l ++ [stampId x.1 x.2]).drop ((l ++ [stampId x.1 x.2]).length - 1000) :=
      write_activity_eq_drop (some l) x.1 x.2
    rw [List.foldl_cons, hsome]
    have hstep : ((l ++ [stampId x.1 x.2]).drop
        ((l ++ [stampId x.1 x.2]).length - 1000)).length ≤ 1000 := by
      rw [List.length_drop]
      omega
    rw [ih _ hstep]
    rw [drop_append_drop _ _ _ _ (by omega)]
    have happ : (l ++ [stampId x.1 x.2]) ++
          List.map (fun ta => stampId ta.1 ta.2) xs =
        l ++ List.map (fun ta => stampId ta.1 ta.2) (x :: xs) := by
      rw [List.map_cons, List.append_assoc]
      rfl
    rw [happ]
    have harith : (l ++ [stampId x.1 x.2]).length - 1000 +
        (((l ++ [stampId x.1 x.2]).drop ((l ++ [stampId x.1 x.2]).length - 1000) ++
            List.map (fun ta => stampId ta.1 ta.2) xs).length - 1000) =
        (l ++ List.map (fun ta => stampId ta.1 ta.2) (x :: xs)).length - 1000 := by
      simp only [List.length_drop, List.length_append, List.length_map,
        List.length_cons, List.length_nil]
      omega
    rw [harith]

/-- C4: the ActivityStore bound and FIFO eviction.  Part 1: after any single
append — hence after each append of any sequence — the persisted list has at
most 1000 entries.  Part 2: the list persisted after a sequence of appends is
exactly the most recent 1000 stamped entries in original order (oldest
dropped first).  Part 3: a parse failure or missing file (`none`) is treated
as the empty list, so the append still succeeds. -/
theorem c4_activity_store :
    (∀ (existing : Option (List StoredActivity)) (t : Nat) (a : StoredActivity),
      (write_activity_to_file existing t a).length ≤ 1000) ∧
    (∀ xs : List (Nat × StoredActivity),
      appendAll xs =
        (xs.map (fun ta => stampId ta.1 ta.2)).drop
          ((xs.map (fun ta => stampId ta.1 ta.2)).length - 1000)) ∧
    (∀ (t : Nat) (a : StoredActivity),
      write_activity_to_file none t a = [stampId t a]) := by
  refine ⟨?_, ?_, ?_⟩
  · intro existing t a
    rw [write_activity_eq_drop, List.length_drop]
    omega
  · intro xs
    rw [appendAll, foldl_write_eq_drop xs [] (by simp)]
    simp
  · intro t a
    rw [write_activity_to_file]
    simp

/-! ### MessageLoop

`pollPass` embeds the inner `for msg in messages` loop of one poll iteration
of `message_loop` (research-agent.py lines 502-634).  The external LLM turn
is a collaborator `llm : id → content → Option response`; `none` stands for a
raised exception, which aborts the rest of the pass (control jumps to the
outer `except`).  Because every successful message is persisted by a full
rewrite of the queue before the next one is examined, the returned `msgs` is
exactly the persisted queue after the pass, whether or not it failed.
`invoked` lists the ids for which the LLM turn was started, in order. -/

/-- One record of `.messages.json`. -/
structure Msg where
  id : Nat
  content : String
  processed : Bool
  response : Option String
  processedAt : Option Nat
deriving DecidableEq

/-- The outcome of one poll pass over the queue. -/
structure PassResult where
  msgs : List Msg
  lastId : Option Nat
  invoked : List Nat
  failed : Bool
deriving DecidableEq

/-- Embeds the per-message loop (research-agent.py lines 507-634): a message
is picked up iff its id differs from `last_message_id` and it is not marked
processed; the id is recorded as last-seen before the LLM turn; on success
the message is marked processed with the response and persisted; an exception
aborts the pass. -/
def pollPass (llm : Nat → String → Option String) (now : Nat) :
    Option Nat → List Msg → PassResult
  | lastId, [] => ⟨[], lastId, [], false⟩
  | lastId, m :: rest =>
    if some m.id ≠ lastId ∧ m.processed = false then
      match llm m.id m.content with
      | none => ⟨m :: rest, some m.id, [m.id], true⟩
      | some resp =>
        let m2 : Msg :=
          { m with processed := true, response := some resp, processedAt := some now }
        let r := pollPass llm now (some m.id) rest
        ⟨m2 :: r.msgs, r.lastId, m.id :: r.invoked, r.failed⟩
    else
      let r := pollPass llm now lastId rest
      ⟨m :: r.msgs, r.lastId, r.invoked, r.failed⟩

/-- A message-loop iteration outcome: `ok` is an iteration that completes,
`fail` one that raises. -/
inductive IterOutcome where
  | ok
  | fail
deriving DecidableEq

/-- The observable run of the error-handling skeleton of `message_loop`
(research-agent.py lines 466, 637-671): the error events emitted (each
carrying the consecutive-error counter), the number of iterations executed,
whether the loop exited through the consecutive-error threshold, and the
final counter value. -/
structure LoopRun where
  errEvents : List Nat
  consumed : Nat
  terminatedByErrors : Bool
  finalCounter : Nat
deriving DecidableEq

/-- Embeds the error policy of `message_loop` driven by a list of iteration
outcomes: a completed iteration resets `consecutive_errors` to 0; an
exception increments it and emits a `message_loop_error` event carrying the
count; reaching `max_consecutive_errors = 5` exits the loop. -/
def message_loop_errors : Nat → List IterOutcome → LoopRun
  | c, [] => ⟨[], 0, false, c⟩
  | _, .ok :: rest =>
    let r := message_loop_errors 0 rest
    ⟨r.errEvents, r.consumed + 1, r.terminatedByErrors, r.finalCounter⟩
  | c, .fail :: rest =>
    if c + 1 ≥ 5 then ⟨[c + 1], 1, true, c + 1⟩
    else
      let r := message_loop_errors (c + 1) rest
      ⟨(c + 1) :: r.errEvents, r.consumed + 1, r.terminatedByErrors, r.finalCounter⟩

/-! ### Claims about the message loop -/

/-- The failing pass of the C2 scenario: message 1 is picked up and the LLM
turn raises. -/
def c2pass1 : PassResult :=
  pollPass (fun _ _ => none) 0 none [⟨1, "a", false, none, none⟩]

/-- The second pass: message 2 has arrived behind the still-unprocessed
message 1; message 1 is skipped as the last-seen id, message 2 is processed
and becomes the new last-seen id. -/
def c2pass2 : PassResult :=
  pollPass (fun _ c => some c) 1 c2pass1.lastId
    (c2pass1.msgs ++ [⟨2, "b", false, none, none⟩])

/-- The third pass over the queue persisted by the second pass. -/
def c2pass3 : PassResult :=
  pollPass (fun _ c => some c) 2 c2pass2.lastId c2pass2.msgs

/-- C2 as stated is false: the loop tracks only a single last-seen id.  In
the concrete run below, message 1 is recorded as last-seen and its LLM turn
raises (pass 1); message 2 is then processed and becomes the last-seen id
(pass 2); the very next pass invokes the LLM for message 1 again (pass 3),
although id 1 had been recorded as last-seen earlier. -/
theorem c2_at_most_once_cex :
    c2pass1.lastId = some 1 ∧ 1 ∈ c2pass1.invoked ∧ 1 ∈ c2pass3.invoked := by
  decide

/-- C2 (amended): at-most-once processing holds per `processed` flag, and
the last-seen id is recorded before processing.  Part 1: a message id whose
queue records are all marked processed is never invoked again in any later
pass.  Part 2: when a pass fails, the failing id has already been recorded as
the last-seen id.  Part 3: a failed message is not redelivered while it
remains the last-seen id, i.e. as long as every other message in the queue is
already processed; redelivery can occur once a different id becomes
last-seen. -/
theorem c2_at_most_once :
    (∀ (llm : Nat → String → Option String) (now : Nat) (lastId : Option Nat)
        (msgs : List Msg) (i : Nat),
      (∀ m ∈ msgs, m.id = i → m.processed = true) →
        i ∉ (pollPass llm now lastId msgs).invoked) ∧
    (∀ (llm : Nat → String → Option String) (now : Nat) (lastId : Option Nat)
        (msgs : List Msg),
      (pollPass llm now lastId msgs).failed = true →
        ∃ i, (pollPass llm now lastId msgs).lastId = some i ∧
          i ∈ (pollPass llm now lastId msgs).invoked) ∧
    (∀ (llm : Nat → String → Option String) (now : Nat) (msgs : List Msg)
        (i : Nat),
      (∀ m ∈ msgs, m.id ≠ i → m.processed = true) →
        i ∉ (pollPass llm now (some i) msgs).invoked) := by
  refine ⟨?_, ?_, ?_⟩
  · intro llm now lastId msgs
    induction msgs generalizing lastId with
    | nil =>
      intro i _
      rw [pollPass]
      exact List.not_mem_nil i
    | cons m rest ih =>
      intro i hproc
      rw [pollPass]
      have hmi : m.id = i → m.processed = true := hproc m (List.mem_cons_self m rest)
      have hrest : ∀ m' ∈ rest, m'.id = i → m'.processed = true :=
        fun m' hm' => hproc m' (List.mem_cons_of_mem m hm')
      split
      · rename_i hcond
        cases hllm : llm m.id m.content with
        | none =>
          simp only [hllm, List.mem_singleton]
          intro hmem
          have := hmi hmem.symm
          rw [this] at hcond
          exact absurd hcond.2 (by simp)
        | some resp =>
          simp only [hllm, List.mem_cons]
          rintro (hmem | hmem)
          · have := hmi hmem.symm
            rw [this] at hcond
            exact absurd hcond.2 (by simp)
          · exact ih (some m.id) i hrest hmem
      · exact ih lastId i hrest
  · intro llm now lastId msgs
    induction msgs generalizing lastId with
    | nil =>
      intro h
      rw [pollPass] at h
      exact absurd h (by simp)
    | cons m rest ih =>
      intro h
      rw [pollPass] at h ⊢
      revert h
      split
      · cases hllm : llm m.id m.content with
        | none =>
          intro _
          exact ⟨m.id, rfl, List.mem_singleton.mpr rfl⟩
        | some resp =>
          intro h
          obtain ⟨i, hlast, hmem⟩ := ih (some m.id) h
          exact ⟨i, hlast, List.mem_cons_of_mem m.id hmem⟩
      · intro h
        obtain ⟨i, hlast, hmem⟩ := ih lastId h
        exact ⟨i, hlast, hmem⟩
  · intro llm now msgs i
    induction msgs with
    | nil =>
      intro _
      rw [pollPass]
      exact List.not_mem_nil i
    | cons m rest ih =>
      intro hproc
      rw [pollPass]
      have hrest : ∀ m' ∈ rest, m'.id ≠ i → m'.processed = true :=
        fun m' hm' => hproc m' (List.mem_cons_of_mem m hm')
      split
      · rename_i hcond
        have hne : m.id ≠ i := fun he => by
          rw [he] at hcond
          exact hcond.1 rfl
        have := hproc m (List.mem_cons_self m rest) hne
        rw [this] at hcond
        exact absurd hcond.2 (by simp)
      · exact ih hrest

/-- Witness for C2 (amended): part 1 on a queue whose only record of id 1 is
processed; part 2 on a failing pass; part 3 on a queue holding only the
last-seen id. -/
theorem c2_at_most_once_witness :
    (1 ∉ (pollPass (fun _ c => some c) 0 none
        [⟨1, "a", true, some "r", some 0⟩]).invoked) ∧
    (∃ i, (pollPass (fun _ _ => none) 0 none
        [⟨3, "a", false, none, none⟩]).lastId = some i ∧
      i ∈ (pollPass (fun _ _ => none) 0 none
        [⟨3, "a", false, none, none⟩]).invoked) ∧
    (2 ∉ (pollPass (fun _ _ => none) 0 (some 2)
        [⟨2, "x", false, none, none⟩]).invoked) :=
  ⟨c2_at_most_once.1 (fun _ c => some c) 0 none
      [⟨1, "a", true, some "r", some 0⟩] 1 (by decide),
    c2_at_most_once.2.1 (fun _ _ => none) 0 none
      [⟨3, "a", false, none, none⟩] (by decide),
    c2_at_most_once.2.2 (fun _ _ => none) 0
      [⟨2, "x", false, none, none⟩] 2 (by decide)⟩

/-- Every run that exits through the error threshold contains, from the point
its counter stood at `c`, either an immediate run of `5 - c` failures or a
full run of five consecutive failures further on. -/
theorem terminated_infix_run (outs : List IterOutcome) :
    ∀ c : Nat, (message_loop_errors c outs).terminatedByErrors = true →
      (List.replicate (5 - c) IterOutcome.fail <+: outs) ∨
        (List.replicate 5 IterOutcome.fail <:+: outs) := by
  induction outs with
  | nil =>
    intro c h
    rw [message_loop_errors] at h
    exact absurd h (by simp)
  | cons o rest ih =>
    intro c h
    cases o with
    | ok =>
      have h' : (message_loop_errors 0 rest).terminatedByErrors = true := h
      rcases ih 0 h' with hpre | hinf
      · obtain ⟨t, ht⟩ := hpre
        right
        refine ⟨[IterOutcome.ok], t, ?_⟩
        have ht5 : List.replicate 5 IterOutcome.fail ++ t = rest := ht
        show IterOutcome.ok :: (List.replicate 5 IterOutcome.fail ++ t) =
          IterOutcome.ok :: rest
        rw [ht5]
      · right
        exact List.infix_cons hinf
    | fail =>
      by_cases hc : c + 1 ≥ 5
      · left
        have h5 : 5 - c = 0 ∨ 5 - c = 1 := by omega
        rcases h5 with h5 | h5
        · rw [h5]
          exact List.nil_prefix
        · rw [h5]
          exact ⟨rest, rfl⟩
      · have h' : (message_loop_errors (c + 1) rest).terminatedByErrors = true := by
          rw [message_loop_errors, if_neg hc] at h
          exact h
        rcases ih (c + 1) h' with hpre | hinf
        · left
          obtain ⟨t, ht⟩ := hpre
          have h5 : 5 - c = (5 - (c + 1)) + 1 := by omega
          rw [h5, List.replicate_succ]
          exact ⟨t, by rw [List.cons_append, ht]⟩
        · right
          exact List.infix_cons hinf

/-- C3: bounded retry.  Part 1: if every iteration raises, the loop
terminates after exactly five iterations, emitting the error events carrying
the consecutive-error counts `1..5`.  Part 2: a completed iteration resets
the counter to zero (the run continues as a fresh run of the tail).  Part 3:
the loop never exits through the error path unless the outcome sequence
contains five consecutive failures. -/
theorem c3_bounded_retry :
    (∀ n : Nat, 5 ≤ n →
      message_loop_errors 0 (List.replicate n IterOutcome.fail) =
        ⟨[1, 2, 3, 4, 5], 5, true, 5⟩) ∧
    (∀ (c : Nat) (rest : List IterOutcome),
      message_loop_errors c (IterOutcome.ok :: rest) =
        ⟨(message_loop_errors 0 rest).errEvents,
          (message_loop_errors 0 rest).consumed + 1,
          (message_loop_errors 0 rest).terminatedByErrors,
          (message_loop_errors 0 rest).finalCounter⟩) ∧
    (∀ outs : List IterOutcome,
      ¬ (List.replicate 5 IterOutcome.fail <:+: outs) →
        (message_loop_errors 0 outs).terminatedByErrors = false) := by
  have h4 : ∀ rest, message_loop_errors 4 (IterOutcome.fail :: rest) =
      ⟨[5], 1, true, 5⟩ := by
    intro rest
    rw [message_loop_errors, if_pos (by omega)]
  have h3 : ∀ rest, message_loop_errors 3
      (IterOutcome.fail :: IterOutcome.fail :: rest) = ⟨[4, 5], 2, true, 5⟩ := by
    intro rest
    rw [message_loop_errors, if_neg (by omega), h4]
  have h2 : ∀ rest, message_loop_errors 2
      (IterOutcome.fail :: IterOutcome.fail :: IterOutcome.fail :: rest) =
      ⟨[3, 4, 5], 3, true, 5⟩ := by
    intro rest
    rw [message_loop_errors, if_neg (by omega), h3]
  have h1 : ∀ rest, message_loop_errors 1
      (IterOutcome.fail :: IterOutcome.fail :: IterOutcome.fail ::
        IterOutcome.fail :: rest) = ⟨[2, 3, 4, 5], 4, true, 5⟩ := by
    intro rest
    rw [message_loop_errors, if_neg (by omega), h2]
  have h0 : ∀ rest, message_loop_errors 0
      (IterOutcome.fail :: IterOutcome.fail :: IterOutcome.fail ::
        IterOutcome.fail :: IterOutcome.fail :: rest) =
      ⟨[1, 2, 3, 4, 5], 5, true, 5⟩ := by
    intro rest
    rw [message_loop_errors, if_neg (by omega), h1]
  refine ⟨?_, ?_, ?_⟩
  · intro n hn
    obtain ⟨k, rfl⟩ : ∃ k, n = 5 + k := ⟨n - 5, by omega⟩
    rw [List.replicate_add]
    exact h0 (List.replicate k IterOutcome.fail)
  · intro c rest
    rw [message_loop_errors]
  · intro outs hout
    by_contra hterm
    have hterm' : (message_loop_errors 0 outs).terminatedByErrors = true := by
      revert hterm
      cases (message_loop_errors 0 outs).terminatedByErrors <;> simp
    rcases terminated_infix_run outs 0 hterm' with hpre | hinf
    · obtain ⟨t, ht⟩ := hpre
      exact hout ⟨[], t, by rw [List.nil_append, ht]⟩
    · exact hout hinf

/-- Witness for C3: the all-fail run of length 6, the counter reset after a
success, and a run alternating failure and success that never terminates via
the error path. -/
theorem c3_bounded_retry_witness :
    message_loop_errors 0 (List.replicate 6 IterOutcome.fail) =
        ⟨[1, 2, 3, 4, 5], 5, true, 5⟩ ∧
    (message_loop_errors 0
        [IterOutcome.fail, IterOutcome.ok, IterOutcome.fail, IterOutcome.fail,
          IterOutcome.fail, IterOutcome.fail]).terminatedByErrors = false :=
  ⟨c3_bounded_retry.1 6 (by omega),
    c3_bounded_retry.2.2
      [IterOutcome.fail, IterOutcome.ok, IterOutcome.fail, IterOutcome.fail,
        IterOutcome.fail, IterOutcome.fail] (by decide)⟩

/-! ### LogEventClassifier

Embeds `ToolCallHandler.emit` (research-agent.py lines 81-304) together with
`infer_tool_from_output` (lines 25-40).  Each regex of the source is
implemented as a dedicated recognizer over character lists.  All the
alternations of those regexes are first-character disjoint (or disjoint
within their first four characters), and every greedy character-class run is
followed by a character outside the class, so the committed-choice
recognizers below coincide with Python's backtracking engine on these
patterns; the one point where backtracking is observable — the tool-name run
of the structured pattern abutting the literal `with` — is implemented with
explicit backtracking in `tryNameSplits`. -/

/-- The regex class `[a-zA-Z0-9_.-]` used for tool names. -/
def isIdentChar (c : Char) : Bool :=
  c.isAlphanum || c = '_' || c = '.' || c = '-'

/-- The regex class `[a-zA-Z0-9_]` used by the `Action:` pattern. -/
def isWordChar (c : Char) : Bool :=
  c.isAlphanum || c = '_'

/-- The regex class `[:\s]`. -/
def isColonWs (c : Char) : Bool :=
  c = ':' || isPyWs c

/-- Case-sensitive literal at the current position; returns the remainder. -/
def dropLit (lit s : List Char) : Option (List Char) :=
  if lit.isPrefixOf s then some (s.drop lit.length) else none

/-- After a key literal: `\s*` then `"` then a non-empty identifier run then
`"`; returns the captured identifier. -/
def matchQuotedIdentAfter (s : List Char) : Option String :=
  match s.dropWhile isPyWs with
  | [] => none
  | q :: r =>
    if q = dq then
      match r.drop (r.takeWhile isIdentChar).length with
      | q2 :: _ =>
        if q2 = dq ∧ r.takeWhile isIdentChar ≠ [] then
          some ⟨r.takeWhile isIdentChar⟩
        else none
      | [] => none
    else none

/-- Leftmost search for `KEY\s*"([a-zA-Z0-9_.-]+)"` where `KEY` is a literal
like `"tool_name":`; implements `re.search` for the streaming patterns. -/
def searchQuotedKey (key : List Char) : List Char → Option String
  | [] => none
  | c :: rest =>
    match dropLit key (c :: rest) with
    | some r =>
      match matchQuotedIdentAfter r with
      | some name => some name
      | none => searchQuotedKey key rest
    | none => searchQuotedKey key rest

/-- One anchored attempt of `Action:\s+([a-zA-Z0-9_]+)`. -/
def matchActionAt (s : List Char) : Option String :=
  match dropLit "Action:".toList s with
  | none => none
  | some r =>
    if r.takeWhile isPyWs = [] then none
    else
      let r2 := r.drop (r.takeWhile isPyWs).length
      if r2.takeWhile isWordChar = [] then none
      else some ⟨r2.takeWhile isWordChar⟩

/-- The `re.MULTILINE` anchored scan: `^` matches at the start of the string
and right after every newline. -/
def searchActionLine : Bool → List Char → Option String
  | _, [] => none
  | atStart, c :: rest =>
    if atStart then
      match matchActionAt (c :: rest) with
      | some t => some t
      | none => searchActionLine (c = '\n') rest
    else searchActionLine (c = '\n') rest

/-- Implements `re.search(r"^Action:\s+([a-zA-Z0-9_]+)", msg, re.MULTILINE)`
(research-agent.py line 142). -/
def searchAction (s : List Char) : Option String :=
  searchActionLine true s

/-- Implements the unanchored `re.search(r"Action:\s+([a-zA-Z0-9_]+)", ...)`
used inside the thought branch (research-agent.py line 245). -/
def searchActionAny : List Char → Option String
  | [] => none
  | c :: rest =>
    match matchActionAt (c :: rest) with
    | some t => some t
    | none => searchActionAny rest

/-- Committed-choice ordered alternation of case-insensitive literals (given
in lower case).  Exact for the alternations of the source, whose branches can
never match at the same position. -/
def dropAlts (alts : List (List Char)) (s : List Char) : Option (List Char) :=
  match alts with
  | [] => none
  | a :: rest =>
    match matchLitCI a s with
    | some r => some r
    | none => dropAlts rest s

/-- The verbs of the tool-call patterns. -/
def verbAlts : List (List Char) :=
  ["calling".toList, "executing".toList, "invoking".toList, "requesting".toList]

/-- The `(?:tool|function)` alternation. -/
def toolFnAlts : List (List Char) :=
  ["tool".toList, "function".toList]

/-- Greedy `['\"]?`: try the continuation with one leading quote consumed
first, then without. -/
def tryOptQuote {α : Type} (k : List Char → Option α) (s : List Char) : Option α :=
  match s with
  | c :: rest =>
    if c = sq || c = dq then
      match k rest with
      | some v => some v
      | none => k s
    else k s
  | [] => k s

/-- The opening brace character. -/
def obrace : Char := Char.ofNat 123

/-- The closing brace character. -/
def cbrace : Char := Char.ofNat 125

/-- Matches `[:\s]*({.+})` with `re.DOTALL`: optional colon/whitespace run,
then an opening brace, then the greedy `.+}` which extends to the last
closing brace of the subject (with at least one character in between);
returns capture group 2 including its braces. -/
def matchArgsBlock (s : List Char) : Option String :=
  match s.dropWhile isColonWs with
  | [] => none
  | c :: rest =>
    if c = obrace then
      match rest.reverse.dropWhile (fun ch => ch ≠ cbrace) with
      | [] => none
      | revUpto =>
        if revUpto.reverse.length ≥ 2 then some ⟨obrace :: revUpto.reverse⟩
        else none
    else none

/-- The continuation after the captured tool name in the structured pattern:
`['\"]?\s+with\s+(?:args|arguments|parameters)` followed by the args block. -/
def afterNameCont (s : List Char) : Option String :=
  tryOptQuote
    (fun s1 =>
      if s1.takeWhile isPyWs = [] then none
      else
        match matchLitCI "with".toList (s1.drop (s1.takeWhile isPyWs).length) with
        | none => none
        | some s3 =>
          if s3.takeWhile isPyWs = [] then none
          else
            match dropAlts ["args".toList, "arguments".toList, "parameters".toList]
                (s3.drop (s3.takeWhile isPyWs).length) with
            | none => none
            | some s5 => matchArgsBlock s5)
    s

/-- Greedy-with-backtracking match of the name run `([a-zA-Z0-9_.-]+)`
against its continuation: the longest split that lets the continuation
succeed wins, as in Python's engine. -/
def tryNameSplits (s : List Char) : Nat → Option (String × String)
  | 0 => none
  | k + 1 =>
    match afterNameCont (s.drop (k + 1)) with
    | some args => some (⟨s.take (k + 1)⟩, args)
    | none => tryNameSplits s k

/-- One anchored attempt of the structured tool-call pattern
(research-agent.py lines 160-164). -/
def matchStructuredAt (s : List Char) : Option (String × String) :=
  match dropAlts verbAlts s with
  | none => none
  | some r =>
    if r.takeWhile isPyWs = [] then none
    else
      match dropAlts toolFnAlts (r.drop (r.takeWhile isPyWs).length) with
      | none => none
      | some r3 =>
        if r3.takeWhile isColonWs = [] then none
        else
          tryOptQuote
            (fun r5 =>
              if r5.takeWhile isIdentChar = [] then none
              else tryNameSplits r5 (r5.takeWhile isIdentChar).length)
            (r3.drop (r3.takeWhile isColonWs).length)

/-- Leftmost search for the structured pattern. -/
def searchStructured : List Char → Option (String × String)
  | [] => none
  | c :: rest =>
    match matchStructuredAt (c :: rest) with
    | some v => some v
    | none => searchStructured rest

/-- One anchored attempt of the simpler fallback pattern
(research-agent.py lines 192-196); returns the captured name and the
remainder after the whole match (`msg[tool_match_simple.end():]`). -/
def matchSimpleAt (s : List Char) : Option (String × List Char) :=
  match dropAlts verbAlts s with
  | none => none
  | some r =>
    if r.takeWhile isPyWs = [] then none
    else
      match dropAlts toolFnAlts (r.drop (r.takeWhile isPyWs).length) with
      | none => none
      | some r3 =>
        if r3.takeWhile isColonWs = [] then none
        else
          tryOptQuote
            (fun r5 =>
              if r5.takeWhile isIdentChar = [] then none
              else
                let run := r5.takeWhile isIdentChar
                let r6 := r5.drop run.length
                let r7 :=
                  match r6 with
                  | c6 :: t6 => if c6 = sq || c6 = dq then t6 else r6
                  | [] => r6
                some (⟨run⟩, r7))
            (r3.drop (r3.takeWhile isColonWs).length)

/-- Leftmost search for the simple fallback pattern. -/
def searchSimple : List Char → Option (String × List Char)
  | [] => none
  | c :: rest =>
    match matchSimpleAt (c :: rest) with
    | some v => some v
    | none => searchSimple rest

/-- The content of a thought event (research-agent.py lines 237-243): the
stripped text after the first of `Thought:`, `Reasoning:`, `Plan:` present in
the message, in that priority order; the whole message when only `Action:`
matched the branch condition. -/
def thoughtContent (msg : String) : String :=
  match afterFirst "Thought:".toList msg.toList with
  | some t => ⟨pyStripList t⟩
  | none =>
    match afterFirst "Reasoning:".toList msg.toList with
    | some t => ⟨pyStripList t⟩
    | none =>
      match afterFirst "Plan:".toList msg.toList with
      | some t => ⟨pyStripList t⟩
      | none => msg

/-- Embeds `infer_tool_from_output` (research-agent.py lines 25-40). -/
def infer_tool_from_output (output : String) : String :=
  if containsSub "progress updated:" (pyLower output) then "update_research_progress"
  else if containsSub "metadata saved" (pyLower output) ||
      containsSub "title:" (pyLower output) then "write_research_metadata"
  else if containsSub "successfully wrote" (pyLower output) ||
      containsSub "characters to" (pyLower output) then "write_file"
  else if containsSub "https://" (pyLower output) ||
      containsSub "http://" (pyLower output) ||
      containsSub "www." (pyLower output) then "web_search"
  else if containsSub "directory created" (pyLower output) ||
      containsSub "created directory" (pyLower output) then "create_directory"
  else "Unknown Tool"

/-- The kind of a classified activity event. -/
inductive ActKind where
  | toolCall
  | thought
  | toolResult
deriving DecidableEq

/-- A classified activity event; `payload` is the `args`/`content`/`output`
field of the emitted JSON object. -/
structure Activity where
  kind : ActKind
  tool : Option String
  payload : String
  tstamp : Nat
deriving DecidableEq

/-- The classifier rule that produced an event. -/
inductive EmitRule where
  | streamToolName
  | streamName
  | actionFmt
  | structuredCall
  | simpleCall
  | thoughtRule
  | resultRule
deriving DecidableEq

/-- The class-level mutable state of `ToolCallHandler`. -/
structure HandlerState where
  lastToolCalled : Option String
  pendingToolCall : Bool
deriving DecidableEq

/-- The observable effect of one `emit` call: the new handler state, the JSON
events printed on stdout, the activities passed to `write_activity_to_file`,
and (for specification purposes) the rule that fired. -/
structure EmitResult where
  state : HandlerState
  live : List Activity
  stored : List Activity
  rule : Option EmitRule
deriving DecidableEq

/-- The blocklist of the simple fallback pattern
(research-agent.py lines 201-212). -/
def simpleBlockList : List String :=
  ["to", "call", "be", "the", "a", "an", "with", "for", "jsonrpc", "mcp_agent"]

/-- Pattern 3 of `emit` — tool results (research-agent.py lines 264-301).
The collaborator `lev` stands for `ast.literal_eval` on the trailing payload
followed by the `content`/`text` extraction loop: `some texts` is a
successful parse yielding the text items, `none` a raised exception, which
the source catches by falling back to the raw payload. -/
def resultContent (lev : String → Option (List String)) (msg : String) : String :=
  match afterFirst "Tool call results: ".toList msg.toList with
  | none => ""
  | some payload =>
    match lev ⟨payload⟩ with
    | some texts => if texts.isEmpty then "" else String.intercalate "\n\n" texts
    | none => ⟨payload⟩

/-- The tool attributed to a result event:
`last_tool_called or infer_tool_from_output(content)` (regex captures are
never empty, so `lastToolCalled` is never the empty string). -/
def resultTool (st : HandlerState) (content : String) : String :=
  match st.lastToolCalled with
  | some t => t
  | none => infer_tool_from_output content

def emitResultStep (lev : String → Option (List String)) (hasPD : Bool)
    (now : Nat) (st : HandlerState) (msg : String) : EmitResult :=
  if containsSub "Tool call results:" msg then
    if resultContent lev msg ≠ "" then
      ⟨st, [⟨.toolResult, some (resultTool st (resultContent lev msg)),
          resultContent lev msg, now⟩],
        if hasPD then
          [⟨.toolResult, some (resultTool st (resultContent lev msg)),
            resultContent lev msg, now⟩]
        else [], some .resultRule⟩
    else ⟨st, [], [], none⟩
  else ⟨st, [], [], none⟩

/-- Pattern 2 of `emit` — thoughts (research-agent.py lines 236-261); an
embedded `Action:` token also updates `lastToolCalled`. -/
def thoughtLastTool (st : HandlerState) (msg : String) : Option String :=
  match searchActionAny msg.toList with
  | some t => some t
  | none => st.lastToolCalled

def emitThoughtStep (lev : String → Option (List String)) (hasPD : Bool)
    (now : Nat) (st : HandlerState) (msg : String) : EmitResult :=
  if containsSub "Thought:" msg || containsSub "Reasoning:" msg ||
      containsSub "Plan:" msg || containsSub "Action:" msg then
    ⟨⟨thoughtLastTool st msg, st.pendingToolCall⟩,
      [⟨.thought, none, thoughtContent msg, now⟩],
      if hasPD then [⟨.thought, none, thoughtContent msg, now⟩] else [],
      some .thoughtRule⟩
  else emitResultStep lev hasPD now st msg

/-- The simple fallback tool-call pattern (research-agent.py lines 192-233):
a blocklisted candidate falls through to the thought branch; a match prints
the event but — unlike every other branch — never writes it to the activity
store. -/
def emitSimpleStep (lev : String → Option (List String)) (hasPD : Bool)
    (now : Nat) (st : HandlerState) (msg : String) : EmitResult :=
  match searchSimple msg.toList with
  | some (cand, restAfter) =>
    if pyLower cand ∈ simpleBlockList then emitThoughtStep lev hasPD now st msg
    else
      ⟨⟨some cand, st.pendingToolCall⟩,
        [⟨.toolCall, some cand,
          if pyStrip ⟨restAfter⟩ = "" then "No arguments provided"
          else pyStrip ⟨restAfter⟩, now⟩],
        [], some .simpleCall⟩
  | none => emitThoughtStep lev hasPD now st msg

/-- The structured tool-call pattern (research-agent.py lines 160-189).  The
`json.loads` attempt on the argument block only reshapes the payload (parsed
arguments on success, the raw text on failure) and cannot raise; the payload
here is the raw captured block. -/
def emitStructuredStep (lev : String → Option (List String)) (hasPD : Bool)
    (now : Nat) (st : HandlerState) (msg : String) : EmitResult :=
  match searchStructured msg.toList with
  | some (name, argsRaw) =>
    ⟨⟨some name, st.pendingToolCall⟩,
      [⟨.toolCall, some name, pyStrip argsRaw, now⟩],
      if hasPD then [⟨.toolCall, some name, pyStrip argsRaw, now⟩] else [],
      some .structuredCall⟩
  | none => emitSimpleStep lev hasPD now st msg

/-- The `^Action:` pattern (research-agent.py lines 142-157). -/
def emitActionStep (lev : String → Option (List String)) (hasPD : Bool)
    (now : Nat) (st : HandlerState) (msg : String) : EmitResult :=
  match searchAction msg.toList with
  | some name =>
    ⟨⟨some name, st.pendingToolCall⟩,
      [⟨.toolCall, some name, "Action format (args not extracted)", now⟩],
      if hasPD then
        [⟨.toolCall, some name, "Action format (args not extracted)", now⟩]
      else [], some .actionFmt⟩
  | none => emitStructuredStep lev hasPD now st msg

/-- The streaming `"name"` capture (research-agent.py lines 118-138): tried
while a tool call is pending or the message carries the `tools/call` method
marker; generic method-name artifacts fall through without clearing the
pending flag. -/
def emitNameStep (lev : String → Option (List String)) (hasPD : Bool)
    (now : Nat) (st : HandlerState) (msg : String) : EmitResult :=
  if st.pendingToolCall || containsSub "\"method\": \"tools/call\"" msg then
    match searchQuotedKey "\"name\":".toList msg.toList with
    | some nm =>
      if nm ≠ "tools/call" ∧ nm ≠ "call" then
        ⟨⟨some nm, false⟩,
          [⟨.toolCall, some nm, "(streaming)", now⟩],
          if hasPD then [⟨.toolCall, some nm, "(streaming)", now⟩] else [],
          some .streamName⟩
      else emitActionStep lev hasPD now st msg
    | none => emitActionStep lev hasPD now st msg
  else emitActionStep lev hasPD now st msg

/-- Embeds `ToolCallHandler.emit` (research-agent.py lines 81-304): the
sensitive-marker filter, the `Requesting tool call` pending marker, the
streaming `"tool_name"` capture, then the chain of patterns above.  `hasPD`
is whether `ToolCallHandler.project_dir` is set. -/
def emit (lev : String → Option (List String)) (hasPD : Bool) (now : Nat)
    (st : HandlerState) (msg : String) : EmitResult :=
  if containsSub "idempotency_key" msg || containsSub "api_key" msg then
    ⟨st, [], [], none⟩
  else if containsSub "Requesting tool call" msg then
    ⟨⟨st.lastToolCalled, true⟩, [], [], none⟩
  else
    match searchQuotedKey "\"tool_name\":".toList msg.toList with
    | some toolName =>
      ⟨⟨some toolName, false⟩,
        [⟨.toolCall, some toolName, "(streaming - args in separate message)", now⟩],
        if hasPD then
          [⟨.toolCall, some toolName, "(streaming - args in separate message)", now⟩]
        else [], some .streamToolName⟩
    | none => emitNameStep lev hasPD now st msg

/-! ### Claims about the classifier -/

/-- The branch invariant of `emit`: at most one event is printed; the simple
fallback branch prints exactly one event and stores nothing; every other
outcome stores exactly the printed events when the project directory is set
and nothing otherwise. -/
def EmitOk (hasPD : Bool) (r : EmitResult) : Prop :=
  r.live.length ≤ 1 ∧
  (r.rule = some EmitRule.simpleCall → r.stored = [] ∧ r.live.length = 1) ∧
  (r.rule ≠ some EmitRule.simpleCall → r.stored = if hasPD then r.live else [])

theorem emitResultStep_ok (lev : String → Option (List String)) (hasPD : Bool)
    (now : Nat) (st : HandlerState) (msg : String) :
    EmitOk hasPD (emitResultStep lev hasPD now st msg) := by
  rw [emitResultStep]
  split
  · split
    · exact ⟨by simp, fun h => by simp at h, fun _ => rfl⟩
    · exact ⟨by simp, fun h => by simp at h, fun _ => by cases hasPD <;> rfl⟩
  · exact ⟨by simp, fun h => by simp at h, fun _ => by cases hasPD <;> rfl⟩

theorem emitThoughtStep_ok (lev : String → Option (List String)) (hasPD : Bool)
    (now : Nat) (st : HandlerState) (msg : String) :
    EmitOk hasPD (emitThoughtStep lev hasPD now st msg) := by
  rw [emitThoughtStep]
  split
  · exact ⟨by simp, fun h => by simp at h, fun _ => rfl⟩
  · exact emitResultStep_ok lev hasPD now st msg

theorem emitSimpleStep_ok (lev : String → Option (List String)) (hasPD : Bool)
    (now : Nat) (st : HandlerState) (msg : String) :
    EmitOk hasPD (emitSimpleStep lev hasPD now st msg) := by
  rw [emitSimpleStep]
  split
  · split
    · exact emitThoughtStep_ok lev hasPD now st msg
    · exact ⟨by simp, fun _ => ⟨rfl, by simp⟩, fun h => absurd rfl h⟩
  · exact emitThoughtStep_ok lev hasPD now st msg

theorem emitStructuredStep_ok (lev : String → Option (List String)) (hasPD : Bool)
    (now : Nat) (st : HandlerState) (msg : String) :
    EmitOk hasPD (emitStructuredStep lev hasPD now st msg) := by
  rw [emitStructuredStep]
  split
  · exact ⟨by simp, fun h => by simp at h, fun _ => rfl⟩
  · exact emitSimpleStep_ok lev hasPD now st msg

theorem emitActionStep_ok (lev : String → Option (List String)) (hasPD : Bool)
    (now : Nat) (st : HandlerState) (msg : String) :
    EmitOk hasPD (emitActionStep lev hasPD now st msg) := by
  rw [emitActionStep]
  split
  · exact ⟨by simp, fun h => by simp at h, fun _ => rfl⟩
  · exact emitStructuredStep_ok lev hasPD now st msg

theorem emitNameStep_ok (lev : String → Option (List String)) (hasPD : Bool)
    (now : Nat) (st : HandlerState) (msg : String) :
    EmitOk hasPD (emitNameStep lev hasPD now st msg) := by
  rw [emitNameStep]
  split
  · split
    · split
      · exact ⟨by simp, fun h => by simp at h, fun _ => rfl⟩
      · exact emitActionStep_ok lev hasPD now st msg
    · exact emitActionStep_ok lev hasPD now st msg
  · exact emitActionStep_ok lev hasPD now st msg

theorem emit_ok (lev : String → Option (List String)) (hasPD : Bool)
    (now : Nat) (st : HandlerState) (msg : String) :
    EmitOk hasPD (emit lev hasPD now st msg) := by
  rw [emit]
  split
  · exact ⟨by simp, fun h => by simp at h, fun _ => by cases hasPD <;> rfl⟩
  · split
    · exact ⟨by simp, fun h => by simp at h, fun _ => by cases hasPD <;> rfl⟩
    · split
      · exact ⟨by simp, fun h => by simp at h, fun _ => rfl⟩
      · exact emitNameStep_ok lev hasPD now st msg

/-- C9: per-line classification is total.  In the embedding `emit` is a total
function — every internal failure point (the `ast.literal_eval` of the result
branch, modelled by the collaborator `lev` returning `none`) is handled to a
normal result, for every parser outcome — and each call prints zero or one
event. -/
theorem c9_classification_total :
    ∀ (lev : String → Option (List String)) (hasPD : Bool) (now : Nat)
      (st : HandlerState) (msg : String),
      (emit lev hasPD now st msg).live.length ≤ 1 :=
  fun lev hasPD now st msg => (emit_ok lev hasPD now st msg).1

/-- C8 as stated is false: the looser verb+name fallback branch prints its
`tool_call` event but never calls `write_activity_to_file`.  On the line
`Calling tool: my_tool now`, with the project directory set, one event is
emitted on stdout and nothing is appended to the activity store. -/
theorem c8_store_cex :
    (emit (fun _ => none) true 0 ⟨none, false⟩
        "Calling tool: my_tool now").live.length = 1 ∧
    (emit (fun _ => none) true 0 ⟨none, false⟩
        "Calling tool: my_tool now").stored = [] := by
  decide

/-- C8 (amended): every recognized event is emitted on the live output
channel, and every recognized event except those produced by the looser
verb+name fallback is also appended to the ActivityStore when a project
directory is set; the fallback branch emits exactly one event and appends
nothing. -/
theorem c8_emit_and_store :
    ∀ (lev : String → Option (List String)) (now : Nat) (st : HandlerState)
      (msg : String),
      ((emit lev true now st msg).rule ≠ some EmitRule.simpleCall →
        (emit lev true now st msg).stored = (emit lev true now st msg).live) ∧
      ((emit lev true now st msg).rule = some EmitRule.simpleCall →
        (emit lev true now st msg).stored = [] ∧
          (emit lev true now st msg).live.length = 1) := by
  intro lev now st msg
  have h := emit_ok lev true now st msg
  exact ⟨fun hr => h.2.2 hr, h.2.1⟩

/-- Witness for C8 (amended): a persisted `Action:` event and the
non-persisted fallback event. -/
theorem c8_emit_and_store_witness :
    (emit (fun _ => none) true 0 ⟨none, false⟩ "Action: web_search").stored =
      (emit (fun _ => none) true 0 ⟨none, false⟩ "Action: web_search").live ∧
    ((emit (fun _ => none) true 0 ⟨none, false⟩ "Calling tool: t7 x").stored = [] ∧
      (emit (fun _ => none) true 0 ⟨none, false⟩ "Calling tool: t7 x").live.length = 1) :=
  ⟨(c8_emit_and_store (fun _ => none) 0 ⟨none, false⟩ "Action: web_search").1
      (by decide),
    (c8_emit_and_store (fun _ => none) 0 ⟨none, false⟩ "Calling tool: t7 x").2
      (by decide)⟩

end OnlineResearch
